import Mathlib

/-!
Verification of the stock-reservation subsystem of the FinalPyBackend
repository (order-detail create/update/delete with pessimistic product-row
locking), as implemented in `src/services/order_detail_service.py`,
`src/services/base_service_impl.py` and
`src/repositories/base_repository_impl.py`.

Modelling conventions of the shallow embedding:
* The database is a `DBState`: the set of existing order ids, an association
  table of products and an association table of order details, keyed by
  integer ids, plus the autoincrement counter for order-detail ids.
* Python's unbounded `int` is `Int` (ids are `Nat`); prices, compared with
  the `0.01` tolerance, are modelled as rationals `Rat`.
* Each operation runs in one transaction.  The Python service performs its
  mutations on ORM objects of one session and either commits once at the
  end or calls `session.rollback()` (or lets the repository do it) before
  re-raising; hence a run of an operation is a function
  `DBState → Except DomainError (DBState × _)`: the `.ok` state is the
  committed state, and an `.error` result leaves the caller with the
  pre-transaction state, mirroring raise-after-rollback.
* The `SELECT ... FOR UPDATE` row lock serializes the critical sections of
  concurrent operations on the same product; concurrent executions are
  therefore modelled as sequential executions in an arbitrary order
  (`runCreates`, `run`).
-/

namespace FinalPyBackend

/-- Modelled from the spec (the ORM model files are not part of the
analysed sources): a `Product` row with its mutable non-negative `stock`
and its `price`, exactly the two columns the reservation subsystem reads
and writes. -/
structure Product where
  stock : Int
  price : Rat
  deriving DecidableEq, Repr

/-- Modelled from the spec (the ORM model files are not part of the
analysed sources): an `OrderDetail` row with its `order_id` and
`product_id` references, its `quantity` and its `price` snapshot. -/
structure OrderDetail where
  order_id : Nat
  product_id : Nat
  quantity : Int
  price : Rat
  deriving DecidableEq, Repr

/-- The committed database state seen by the reservation subsystem. -/
structure DBState where
  orders : List Nat
  products : List (Nat × Product)
  orderDetails : List (Nat × OrderDetail)
  nextId : Nat
  deriving DecidableEq, Repr

/-- Table select, `SELECT ... WHERE id_key = k`, on an association table: the first row
with the given key, if any. -/
def lookupTbl {α : Type} : List (Nat × α) → Nat → Option α
  | [], _ => none
  | p :: rest, k => if p.1 = k then some p.2 else lookupTbl rest k

/-- Overwrite the row with key `k` by `v` (ORM attribute assignment on the
loaded row; rows with other keys are untouched). -/
def setTbl {α : Type} : List (Nat × α) → Nat → α → List (Nat × α)
  | [], _, _ => []
  | p :: rest, k, v => (if p.1 = k then (p.1, v) else p) :: setTbl rest k v

/-- Row deletion, `session.delete`, of the row with key `k`. -/
def removeTbl {α : Type} : List (Nat × α) → Nat → List (Nat × α)
  | [], _ => []
  | p :: rest, k => if p.1 = k then removeTbl rest k else p :: removeTbl rest k

/-- The domain errors of the subsystem.  In the Python source, the
not-found cases are `InstanceNotFoundError` and the three validation cases
are `ValueError`s whose messages carry the distinguishing data; the spec
names them `NotFound(*)`, `InsufficientStock`, `PriceMismatch`, and the
base repository additionally raises `ValueError` for protected or unknown
attributes in an update. -/
inductive DomainError where
  | notFoundOrder : Nat → DomainError
  | notFoundProduct : Nat → DomainError
  | notFoundOrderDetail : Nat → DomainError
  | insufficientStock : (productId : Nat) → (requested : Int) → (available : Int) → DomainError
  | priceMismatch : (expected : Rat) → (got : Rat) → DomainError
  | protectedAttr : String → DomainError
  | invalidField : String → DomainError
  deriving DecidableEq, Repr

/-- The payload of `OrderDetailCreateSchema`
(`src/schemas/order_detail_schema.py`): `order_id`, `product_id`, a
`quantity` (validated positive by the schema) and an optional submitted
`price`. -/
structure CreateReq where
  order_id : Nat
  product_id : Nat
  quantity : Int
  price : Option Rat
  deriving DecidableEq, Repr

/-- Embedding of `OrderDetailService.save`
(src/services/order_detail_service.py lines 31-93): validate the order exists, lock and load the product, validate
stock, resolve the final price against the 0.01 tolerance, deduct stock,
insert the order detail, commit; any failure rolls the transaction back
and re-raises. -/
def save (s : DBState) (req : CreateReq) : Except DomainError (DBState × Nat) :=
  if req.order_id ∈ s.orders then
    match lookupTbl s.products req.product_id with
    | none => .error (.notFoundProduct req.product_id)
    | some product =>
      if product.stock < req.quantity then
        .error (.insufficientStock req.product_id req.quantity product.stock)
      else
        let finalPrice := match req.price with
          | some p => p
          | none => product.price
        if |finalPrice - product.price| > (1 : Rat) / 100 then
          .error (.priceMismatch product.price finalPrice)
        else
          let od : OrderDetail :=
            { order_id := req.order_id
              product_id := req.product_id
              quantity := req.quantity
              price := finalPrice }
          .ok ({ s with
                  products := setTbl s.products req.product_id
                    { product with stock := product.stock - req.quantity }
                  orderDetails := s.orderDetails ++ [(s.nextId, od)]
                  nextId := s.nextId + 1 },
               s.nextId)
  else .error (.notFoundOrder req.order_id)

/-- A typed value assigned to a column by the base repository's
attribute-wise update. -/
inductive Value where
  | vNat : Nat → Value
  | vInt : Int → Value
  | vRat : Rat → Value
  deriving DecidableEq, Repr

/-- The columns of the `OrderDetail` ORM model
(`self.model.__table__.columns`).  Modelled from the spec (the ORM model
file is not part of the analysed sources): identity plus `order_id`,
`product_id`, `quantity`, `price`. -/
def odColumns : List String :=
  ["id_key", "order_id", "product_id", "quantity", "price"]

/-- The `PROTECTED` attribute set of `BaseRepositoryImpl.update`
(src/repositories/base_repository_impl.py line 125). -/
def PROTECTED : List String :=
  ["id_key", "_sa_instance_state", "__class__", "__dict__"]

/-- Attribute assignment `setattr(instance, key, value)` on an `OrderDetail` row, for each
column the model has; an assignment whose value has the wrong type for the
column is not produced by the system and is modelled as a no-op. -/
def OrderDetail.applyChange (od : OrderDetail) (key : String) (v : Value) : OrderDetail :=
  if key = "order_id" then
    match v with
    | .vNat n => { od with order_id := n }
    | _ => od
  else if key = "product_id" then
    match v with
    | .vNat n => { od with product_id := n }
    | _ => od
  else if key = "quantity" then
    match v with
    | .vInt i => { od with quantity := i }
    | _ => od
  else if key = "price" then
    match v with
    | .vRat q => { od with price := q }
    | _ => od
  else od

/-- Python's `key.startswith("_")`: the key is non-empty and its first
character is an underscore. -/
def startsWithUnderscore (key : String) : Bool :=
  match key.data with
  | [] => false
  | c :: _ => c == '_'

/-- The `for key, value in changes.items()` loop of
`BaseRepositoryImpl.update` (lines 138-146): a `None` value is skipped; a
key starting with an underscore or in `PROTECTED` raises `ValueError`
(`protectedAttr`); a key that is not a column raises `ValueError`
(`invalidField`); otherwise the attribute is assigned and the loop
continues. -/
def applyChanges : OrderDetail → List (String × Option Value) → Except DomainError OrderDetail
  | od, [] => .ok od
  | od, (_, none) :: rest => applyChanges od rest
  | od, (key, some v) :: rest =>
    if startsWithUnderscore key || key ∈ PROTECTED then .error (.protectedAttr key)
    else if key ∉ odColumns then .error (.invalidField key)
    else applyChanges (od.applyChange key v) rest

/-- Embedding of `BaseRepositoryImpl.update` specialised to the `OrderDetail` model
(src/repositories/base_repository_impl.py lines 124-162): load the row,
raise `InstanceNotFoundError` if absent, apply the changes mapping
attribute by attribute, commit; a `ValueError` in the loop rolls back, so
an `.error` result leaves the caller's state unchanged. -/
def repoUpdate (s : DBState) (id_key : Nat) (changes : List (String × Option Value)) :
    Except DomainError (DBState × OrderDetail) :=
  match lookupTbl s.orderDetails id_key with
  | none => .error (.notFoundOrderDetail id_key)
  | some inst =>
    match applyChanges inst changes with
    | .error e => .error e
    | .ok od => .ok ({ s with orderDetails := setTbl s.orderDetails id_key od }, od)

/-- The partial-update payload accepted by `OrderDetailService.update`: the
service reads `schema.order_id`, `schema.product_id`, `schema.quantity` and
`schema.price`, each of which may be absent (`None`). -/
structure UpdatePatch where
  order_id : Option Nat
  product_id : Option Nat
  quantity : Option Int
  price : Option Rat
  deriving DecidableEq, Repr

/-- Embedding of `schema_in.model_dump(exclude_unset=True)` in `BaseServiceImpl.update`
(src/services/base_service_impl.py lines 61-63), restricted to the four
domain fields, in the declaration order of `OrderDetailSchemaBase`. -/
def UpdatePatch.changes (p : UpdatePatch) : List (String × Option Value) :=
  [("quantity", p.quantity.map Value.vInt),
   ("price", p.price.map Value.vRat),
   ("order_id", p.order_id.map Value.vNat),
   ("product_id", p.product_id.map Value.vNat)]

/-- The stock-adjustment block of `OrderDetailService.update`
(src/services/order_detail_service.py lines 128-171): when a product id or
a quantity is supplied, lock and load the effective product (the new one if
given, else the existing detail's); if the quantity changes, compute the
difference, reject a positive difference exceeding the available stock with
`InsufficientStock`, and apply `stock -= diff` under the lock. -/
def updateStock (s : DBState) (existing : OrderDetail) (patch : UpdatePatch) :
    Except DomainError DBState :=
  if patch.product_id.isSome || patch.quantity.isSome then
    let pid := patch.product_id.getD existing.product_id
    match lookupTbl s.products pid with
    | none => .error (.notFoundProduct pid)
    | some product =>
      match patch.quantity with
      | some q =>
        if q ≠ existing.quantity then
          let diff := q - existing.quantity
          if diff > 0 ∧ product.stock < diff then
            .error (.insufficientStock pid diff product.stock)
          else
            .ok { s with
                    products := setTbl s.products pid
                      { product with stock := product.stock - diff } }
        else .ok s
      | none => .ok s
  else .ok s

/-- Embedding of `OrderDetailService.update`
(src/services/order_detail_service.py lines 96-174): load the existing detail, validate a supplied order id, run the
locked stock adjustment, then delegate to `BaseServiceImpl.update`, whose
repository call commits the whole transaction or rolls it all back
(including the stock adjustment, which lives in the same session). -/
def update (s : DBState) (id_key : Nat) (patch : UpdatePatch) :
    Except DomainError (DBState × OrderDetail) :=
  match lookupTbl s.orderDetails id_key with
  | none => .error (.notFoundOrderDetail id_key)
  | some existing =>
    match patch.order_id with
    | some o =>
      if o ∈ s.orders then
        match updateStock s existing patch with
        | .error e => .error e
        | .ok s1 => repoUpdate s1 id_key patch.changes
      else .error (.notFoundOrder o)
    | none =>
      match updateStock s existing patch with
      | .error e => .error e
      | .ok s1 => repoUpdate s1 id_key patch.changes

/-- Embedding of `OrderDetailService.delete`
(src/services/order_detail_service.py lines 176-227) followed by `BaseServiceImpl.delete` → `BaseRepositoryImpl.remove`:
load the detail, lock and load its product, restore `stock += quantity`,
re-select and delete the detail row, commit both mutations together. -/
def delete (s : DBState) (id_key : Nat) : Except DomainError DBState :=
  match lookupTbl s.orderDetails id_key with
  | none => .error (.notFoundOrderDetail id_key)
  | some od =>
    match lookupTbl s.products od.product_id with
    | none => .error (.notFoundProduct od.product_id)
    | some product =>
      let s1 := { s with
                    products := setTbl s.products od.product_id
                      { product with stock := product.stock + od.quantity } }
      match lookupTbl s1.orderDetails id_key with
      | none => .error (.notFoundOrderDetail id_key)
      | some _ => .ok { s1 with orderDetails := removeTbl s1.orderDetails id_key }

/-- One client-visible operation of the subsystem. -/
inductive Op where
  | create : CreateReq → Op
  | updateOp : Nat → UpdatePatch → Op
  | deleteOp : Nat → Op
  deriving DecidableEq, Repr

/-- The committed state after one operation: the `.ok` state on success,
the unchanged pre-transaction state after a rollback. -/
def applyOp (s : DBState) (op : Op) : DBState :=
  match op with
  | .create r =>
    match save s r with
    | .ok t => t.1
    | .error _ => s
  | .updateOp i p =>
    match update s i p with
    | .ok t => t.1
    | .error _ => s
  | .deleteOp i =>
    match delete s i with
    | .ok t => t
    | .error _ => s

/-- The domain error an operation fails with, if any. -/
def opError (s : DBState) (op : Op) : Option DomainError :=
  match op with
  | .create r =>
    match save s r with
    | .ok _ => none
    | .error e => some e
  | .updateOp i p =>
    match update s i p with
    | .ok _ => none
    | .error e => some e
  | .deleteOp i =>
    match delete s i with
    | .ok _ => none
    | .error e => some e

/-- Sequential execution of a list of operations; by the row-lock
serialization argument this also models any concurrent schedule of the same
operations. -/
def run (s : DBState) (ops : List Op) : DBState := ops.foldl applyOp s

/-- Serialized execution of a batch of Create requests (the row lock forces
concurrent `save` calls on one product into some sequential order): returns
the final state and, per request, its quantity paired with its outcome. -/
def runCreates : DBState → List CreateReq → DBState × List (Int × Except DomainError Nat)
  | s, [] => (s, [])
  | s, r :: rest =>
    match save s r with
    | .ok (s1, n) =>
      let out := runCreates s1 rest
      (out.1, (r.quantity, .ok n) :: out.2)
    | .error e =>
      let out := runCreates s rest
      (out.1, (r.quantity, .error e) :: out.2)

/-- The total quantity of the requests that succeeded in a `runCreates`
outcome list. -/
def successSum (outcomes : List (Int × Except DomainError Nat)) : Int :=
  (outcomes.map (fun p =>
    match p.2 with
    | .ok _ => p.1
    | .error _ => 0)).sum

/-! ### Association-table lemmas -/

theorem lookupTbl_setTbl_self {α : Type} (tbl : List (Nat × α)) (k : Nat) (v : α)
    (x : α) (h : lookupTbl tbl k = some x) :
    lookupTbl (setTbl tbl k v) k = some v := by
  induction tbl with
  | nil => simp [lookupTbl] at h
  | cons hd tl ih =>
    by_cases hk : hd.1 = k
    · simp [lookupTbl, setTbl, hk]
    · simp only [lookupTbl, setTbl, hk, if_false] at h ⊢
      exact ih h

theorem lookupTbl_setTbl_ne {α : Type} (tbl : List (Nat × α)) (k k' : Nat) (v : α)
    (hne : k' ≠ k) :
    lookupTbl (setTbl tbl k v) k' = lookupTbl tbl k' := by
  have hkk : ¬(k = k') := fun h => hne h.symm
  induction tbl with
  | nil => simp [lookupTbl, setTbl]
  | cons hd tl ih =>
    by_cases hk : hd.1 = k
    · simp [lookupTbl, setTbl, hk, hkk, ih]
    · by_cases hc : hd.1 = k'
      · simp [lookupTbl, setTbl, hk, hc, hne]
      · simp [lookupTbl, setTbl, hk, hc, ih]

theorem lookupTbl_removeTbl_self {α : Type} (tbl : List (Nat × α)) (k : Nat) :
    lookupTbl (removeTbl tbl k) k = none := by
  induction tbl with
  | nil => simp [lookupTbl, removeTbl]
  | cons hd tl ih =>
    by_cases hk : hd.1 = k
    · simpa [removeTbl, hk] using ih
    · simpa [removeTbl, lookupTbl, hk] using ih

theorem mem_setTbl {α : Type} (tbl : List (Nat × α)) (k : Nat) (v : α)
    (y : Nat × α) (hy : y ∈ setTbl tbl k v) : y ∈ tbl ∨ y.2 = v := by
  induction tbl with
  | nil => simp [setTbl] at hy
  | cons hd tl ih =>
    simp only [setTbl, List.mem_cons] at hy
    rcases hy with hy | hy
    · by_cases hk : hd.1 = k
      · simp only [hk, if_true] at hy
        exact Or.inr (by simp [hy])
      · simp only [hk, if_false] at hy
        exact Or.inl (by simp [hy])
    · rcases ih hy with h | h
      · exact Or.inl (List.mem_cons_of_mem _ h)
      · exact Or.inr h

theorem mem_removeTbl {α : Type} (tbl : List (Nat × α)) (k : Nat)
    (y : Nat × α) (hy : y ∈ removeTbl tbl k) : y ∈ tbl := by
  induction tbl with
  | nil => simp [removeTbl] at hy
  | cons hd tl ih =>
    by_cases hk : hd.1 = k
    · simp only [removeTbl, hk, if_true] at hy
      exact List.mem_cons_of_mem _ (ih hy)
    · simp only [removeTbl, hk, if_false, List.mem_cons] at hy
      rcases hy with hy | hy
      · exact hy ▸ List.mem_cons_self _ _
      · exact List.mem_cons_of_mem _ (ih hy)

/-! ### Evaluation of the repository update loop on a service patch -/

theorem applyChanges_patch (od : OrderDetail) (p : UpdatePatch) :
    applyChanges od p.changes = .ok
      { order_id := p.order_id.getD od.order_id
        product_id := p.product_id.getD od.product_id
        quantity := p.quantity.getD od.quantity
        price := p.price.getD od.price } := by
  obtain ⟨o, pid, q, c⟩ := p
  cases o <;> cases pid <;> cases q <;> cases c <;> rfl

/-! ### Branch characterizations of the operations -/

theorem save_eq (s : DBState) (req : CreateReq) (S : Int) (P : Rat)
    (horder : req.order_id ∈ s.orders)
    (hprod : lookupTbl s.products req.product_id = some { stock := S, price := P }) :
    save s req =
      if S < req.quantity then
        .error (.insufficientStock req.product_id req.quantity S)
      else if |req.price.getD P - P| > (1 : Rat) / 100 then
        .error (.priceMismatch P (req.price.getD P))
      else
        .ok ({ s with
                products := setTbl s.products req.product_id
                  { stock := S - req.quantity, price := P }
                orderDetails := s.orderDetails ++
                  [(s.nextId, { order_id := req.order_id, product_id := req.product_id,
                                quantity := req.quantity, price := req.price.getD P })]
                nextId := s.nextId + 1 }, s.nextId) := by
  simp only [save, horder, if_true, hprod]
  cases req.price <;> simp [Option.getD]

theorem repoUpdate_patch (s : DBState) (k : Nat) (p : UpdatePatch) (d : OrderDetail)
    (hd : lookupTbl s.orderDetails k = some d) :
    repoUpdate s k p.changes = .ok
      ({ s with
          orderDetails := setTbl s.orderDetails k
            { order_id := p.order_id.getD d.order_id
              product_id := p.product_id.getD d.product_id
              quantity := p.quantity.getD d.quantity
              price := p.price.getD d.price } },
       { order_id := p.order_id.getD d.order_id
         product_id := p.product_id.getD d.product_id
         quantity := p.quantity.getD d.quantity
         price := p.price.getD d.price }) := by
  simp only [repoUpdate, hd, applyChanges_patch]

/-! ### Claim theorems -/

/-- C4: with the order existing and the product present with stock `S`,
`CreateOrderDetail` fails with `InsufficientStock` exactly when `S` is
strictly below the requested quantity; requesting exactly `S` (with no
submitted price) succeeds and leaves the stock at `0`, and requesting
`S + 1` fails with `InsufficientStock`. -/
theorem create_insufficientStock_iff (s : DBState) (req : CreateReq) (S : Int) (P : Rat)
    (horder : req.order_id ∈ s.orders)
    (hprod : lookupTbl s.products req.product_id = some { stock := S, price := P }) :
    ((∃ a b c, save s req = .error (.insufficientStock a b c)) ↔ S < req.quantity) ∧
    (req.price = none → req.quantity = S →
      ∃ t, save s req = .ok t ∧
        lookupTbl t.1.products req.product_id = some { stock := 0, price := P }) ∧
    (req.quantity = S + 1 →
      save s req = .error (.insufficientStock req.product_id (S + 1) S)) := by
  have hs := save_eq s req S P horder hprod
  refine ⟨⟨?_, ?_⟩, ?_, ?_⟩
  · rintro ⟨a, b, c, h⟩
    by_contra hlt
    rw [hs, if_neg hlt] at h
    split at h <;> simp at h
  · intro hlt
    refine ⟨req.product_id, req.quantity, S, ?_⟩
    rw [hs, if_pos hlt]
  · intro hnone hq
    rw [hs, if_neg (by omega), hnone]
    simp only [Option.getD, sub_self, abs_zero]
    rw [if_neg (by norm_num)]
    refine ⟨_, rfl, ?_⟩
    have := lookupTbl_setTbl_self s.products req.product_id
      { stock := S - req.quantity, price := P } _ hprod
    simpa [hq] using this
  · intro hq
    rw [hs, hq, if_pos (by omega)]

/-- C5: with the order existing, the product present with stock `S ≥
quantity` and price `P`, the created detail's price is the submitted price
if one is given and `P` otherwise; the call fails with `PriceMismatch`
exactly when a price is submitted that differs from `P` by more than
`0.01`; a submitted price of `P + 0.005` succeeds and one of `P + 0.02`
fails with `PriceMismatch`. -/
theorem create_price_resolution (s : DBState) (req : CreateReq) (S : Int) (P : Rat)
    (horder : req.order_id ∈ s.orders)
    (hprod : lookupTbl s.products req.product_id = some { stock := S, price := P })
    (hstock : req.quantity ≤ S) :
    ((∃ a b, save s req = .error (.priceMismatch a b)) ↔
      (∃ pr, req.price = some pr ∧ |pr - P| > (1 : Rat) / 100)) ∧
    ((∀ pr, req.price = some pr → |pr - P| ≤ (1 : Rat) / 100) →
      save s req = .ok
        ({ s with
            products := setTbl s.products req.product_id
              { stock := S - req.quantity, price := P }
            orderDetails := s.orderDetails ++
              [(s.nextId, { order_id := req.order_id, product_id := req.product_id,
                            quantity := req.quantity, price := req.price.getD P })]
            nextId := s.nextId + 1 }, s.nextId)) ∧
    (req.price = some (P + 5/1000) → ∃ t, save s req = .ok t) ∧
    (req.price = some (P + 2/100) →
      save s req = .error (.priceMismatch P (P + 2/100))) := by
  have hs := save_eq s req S P horder hprod
  have hnl : ¬ S < req.quantity := by omega
  have htol : ∀ pr, req.price = some pr →
      (|req.price.getD P - P| > (1 : Rat) / 100 ↔ |pr - P| > (1 : Rat) / 100) := by
    intro pr hpr
    rw [hpr]
    simp [Option.getD]
  refine ⟨⟨?_, ?_⟩, ?_, ?_, ?_⟩
  · rintro ⟨a, b, h⟩
    rw [hs, if_neg hnl] at h
    cases hp : req.price with
    | none =>
      rw [hp] at h
      simp only [Option.getD, sub_self, abs_zero] at h
      rw [if_neg (by norm_num)] at h
      simp at h
    | some pr =>
      refine ⟨pr, rfl, ?_⟩
      by_contra hno
      rw [if_neg ((htol pr hp).not.mpr hno)] at h
      simp at h
  · rintro ⟨pr, hpr, hgt⟩
    rw [hs, if_neg hnl, if_pos ((htol pr hpr).mpr hgt), hpr]
    simp [Option.getD]
  · intro hok
    have hcond : ¬ |req.price.getD P - P| > (1 : Rat) / 100 := by
      cases hp : req.price with
      | none => simp only [Option.getD, sub_self, abs_zero]; norm_num
      | some pr => simpa [Option.getD] using not_lt.mpr (hok pr hp)
    rw [hs, if_neg hnl, if_neg hcond]
  · intro hpr
    have hcond : ¬ |req.price.getD P - P| > (1 : Rat) / 100 := by
      rw [hpr]
      simp only [Option.getD, add_sub_cancel_left]
      rw [abs_of_nonneg (by norm_num)]
      norm_num
    exact ⟨_, by rw [hs, if_neg hnl, if_neg hcond]⟩
  · intro hpr
    have hcond : |req.price.getD P - P| > (1 : Rat) / 100 := by
      rw [hpr]
      simp only [Option.getD, add_sub_cancel_left]
      rw [abs_of_nonneg (by norm_num)]
      norm_num
    rw [hs, if_neg hnl, if_pos hcond, hpr]
    simp [Option.getD]

/-- A fixed concrete database used to witness the claim theorems: one
order, one product with stock 10 and price 2. -/
def wState : DBState :=
  { orders := [1]
    products := [(5, { stock := 10, price := 2 })]
    orderDetails := []
    nextId := 100 }

/-- Witness for C4: in `wState`, creating quantity 11 against stock 10
fails with `InsufficientStock(5, 11, 10)`. -/
theorem create_insufficientStock_iff_witness :
    (1 : Nat) ∈ wState.orders ∧
    lookupTbl wState.products 5 = some { stock := 10, price := 2 } ∧
    save wState { order_id := 1, product_id := 5, quantity := 11, price := none } =
      .error (.insufficientStock 5 11 10) :=
  ⟨by decide, rfl,
    (create_insufficientStock_iff wState
      { order_id := 1, product_id := 5, quantity := 11, price := none } 10 2
      (by decide) rfl).2.2 (by decide)⟩

/-- Witness for C5: in `wState`, creating with submitted price `2 + 0.02`
against product price 2 fails with `PriceMismatch(2, 2.02)`. -/
theorem create_price_resolution_witness :
    (1 : Nat) ∈ wState.orders ∧
    lookupTbl wState.products 5 = some { stock := 10, price := 2 } ∧
    (3 : Int) ≤ 10 ∧
    save wState { order_id := 1, product_id := 5, quantity := 3, price := some (2 + 2/100) } =
      .error (.priceMismatch 2 (2 + 2/100)) :=
  ⟨by decide, rfl, by decide,
    (create_price_resolution wState
      { order_id := 1, product_id := 5, quantity := 3, price := some (2 + 2/100) } 10 2
      (by decide) rfl (by decide)).2.2.2 rfl⟩

theorem lookupTbl_append_fresh {α : Type} (l : List (Nat × α)) (k : Nat) (v : α)
    (h : lookupTbl l k = none) : lookupTbl (l ++ [(k, v)]) k = some v := by
  induction l with
  | nil => simp [lookupTbl]
  | cons hd tl ih =>
    by_cases hk : hd.1 = k
    · simp [lookupTbl, hk] at h
    · simp only [lookupTbl, hk, if_false] at h ⊢
      exact ih h

/-- C3: with an existing order, a product with stock `S ≥ q` and price `P`,
and a fresh autoincrement id, a Create of quantity `q` without a submitted
price succeeds, leaves the product's stock at `S - q` and records the
detail with price `P`; deleting that detail then restores the stock to `S`
and removes the detail row. -/
theorem create_delete_roundtrip (s : DBState) (o pid : Nat) (q S : Int) (P : Rat)
    (horder : o ∈ s.orders)
    (hprod : lookupTbl s.products pid = some { stock := S, price := P })
    (hq : q ≤ S)
    (hfresh : lookupTbl s.orderDetails s.nextId = none) :
    ∃ s1, save s { order_id := o, product_id := pid, quantity := q, price := none } =
        .ok (s1, s.nextId) ∧
      lookupTbl s1.products pid = some { stock := S - q, price := P } ∧
      lookupTbl s1.orderDetails s.nextId =
        some { order_id := o, product_id := pid, quantity := q, price := P } ∧
      ∃ s2, delete s1 s.nextId = .ok s2 ∧
        lookupTbl s2.products pid = some { stock := S, price := P } ∧
        lookupTbl s2.orderDetails s.nextId = none := by
  have hs := save_eq s { order_id := o, product_id := pid, quantity := q, price := none }
    S P horder hprod
  simp only [] at hs
  rw [if_neg (by omega)] at hs
  simp only [Option.getD, sub_self, abs_zero] at hs
  rw [if_neg (by norm_num)] at hs
  refine ⟨_, hs, ?_, ?_, ?_⟩
  · exact lookupTbl_setTbl_self s.products pid _ _ hprod
  · exact lookupTbl_append_fresh s.orderDetails s.nextId _ hfresh
  · have hd1 : lookupTbl (s.orderDetails ++
        [(s.nextId, { order_id := o, product_id := pid, quantity := q, price := P })])
        s.nextId =
        some { order_id := o, product_id := pid, quantity := q, price := P } :=
      lookupTbl_append_fresh s.orderDetails s.nextId _ hfresh
    have hp1 : lookupTbl (setTbl s.products pid { stock := S - q, price := P }) pid =
        some { stock := S - q, price := P } :=
      lookupTbl_setTbl_self s.products pid _ _ hprod
    simp only [delete, hd1, hp1]
    refine ⟨_, rfl, ?_, ?_⟩
    · have hSq : S - q + q = S := by omega
      simpa [hSq] using lookupTbl_setTbl_self
        (setTbl s.products pid { stock := S - q, price := P }) pid
        { stock := S - q + q, price := P } _ hp1
    · exact lookupTbl_removeTbl_self _ _

/-- Witness for C3: in `wState`, create quantity 3 on product 5 (stock 10,
price 2) and observe the new stock 7 and the recorded detail. -/
theorem create_delete_roundtrip_witness :
    (1 : Nat) ∈ wState.orders ∧
    lookupTbl wState.products 5 = some { stock := 10, price := 2 } ∧
    (3 : Int) ≤ 10 ∧
    lookupTbl wState.orderDetails wState.nextId = none ∧
    (∃ s1, save wState { order_id := 1, product_id := 5, quantity := 3, price := none } =
        .ok (s1, wState.nextId) ∧
      lookupTbl s1.products 5 = some { stock := 10 - 3, price := 2 } ∧
      lookupTbl s1.orderDetails wState.nextId =
        some { order_id := 1, product_id := 5, quantity := 3, price := 2 } ∧
      ∃ s2, delete s1 wState.nextId = .ok s2 ∧
        lookupTbl s2.products 5 = some { stock := 10, price := 2 } ∧
        lookupTbl s2.orderDetails wState.nextId = none) :=
  ⟨by decide, rfl, by decide, rfl,
    create_delete_roundtrip wState 1 5 3 10 2 (by decide) rfl (by decide) rfl⟩

/-- C7: update delta semantics.  For an existing detail with old quantity
`d.quantity` on a product with stock `S`, an update to quantity `qn`
computes `delta = qn - d.quantity`; a positive delta exceeding the stock
fails with `InsufficientStock`; otherwise the update succeeds and applies
`stock -= delta` (negative deltas restore stock); and an update to the
unchanged quantity leaves the product table untouched. -/
theorem update_delta_semantics (s : DBState) (id : Nat) (d : OrderDetail) (S : Int) (P : Rat)
    (qn : Int)
    (hd : lookupTbl s.orderDetails id = some d)
    (hprod : lookupTbl s.products d.product_id = some { stock := S, price := P }) :
    (qn - d.quantity > 0 ∧ S < qn - d.quantity →
      update s id { order_id := none, product_id := none, quantity := some qn, price := none } =
        .error (.insufficientStock d.product_id (qn - d.quantity) S)) ∧
    (qn ≠ d.quantity → ¬(qn - d.quantity > 0 ∧ S < qn - d.quantity) →
      update s id { order_id := none, product_id := none, quantity := some qn, price := none } =
        .ok ({ s with
                products := setTbl s.products d.product_id
                  { stock := S - (qn - d.quantity), price := P }
                orderDetails := setTbl s.orderDetails id { d with quantity := qn } },
             { d with quantity := qn })) ∧
    (qn = d.quantity →
      update s id { order_id := none, product_id := none, quantity := some qn, price := none } =
        .ok ({ s with orderDetails := setTbl s.orderDetails id { d with quantity := qn } },
             { d with quantity := qn })) := by
  refine ⟨?_, ?_, ?_⟩
  · rintro ⟨hpos, hlt⟩
    have hne : qn ≠ d.quantity := by omega
    simp only [update, hd, updateStock, Option.isSome_some, Bool.or_true, if_true,
      Option.getD_none, hprod]
    rw [if_pos hne, if_pos ⟨hpos, hlt⟩]
  · intro hne hnostock
    simp only [update, hd, updateStock, Option.isSome_some, Bool.or_true, if_true,
      Option.getD_none, hprod]
    rw [if_pos hne, if_neg hnostock]
    exact repoUpdate_patch _ _ _ d hd
  · intro heq
    simp only [update, hd, updateStock, Option.isSome_some, Bool.or_true, if_true,
      Option.getD_none, hprod]
    rw [if_neg (by simpa using heq)]
    exact repoUpdate_patch _ _ _ d hd

/-- A second concrete database for the update witnesses: one existing
detail of quantity 3 on product 5 with stock 5. -/
def wState2 : DBState :=
  { orders := [1]
    products := [(5, { stock := 5, price := 2 })]
    orderDetails := [(7, { order_id := 1, product_id := 5, quantity := 3, price := 2 })]
    nextId := 8 }

/-- Witness for C7: updating the detail of quantity 3 to quantity 10 on a
product with stock 5 (delta 7) fails with `InsufficientStock(5, 7, 5)`. -/
theorem update_delta_semantics_witness :
    lookupTbl wState2.orderDetails 7 =
      some { order_id := 1, product_id := 5, quantity := 3, price := 2 } ∧
    lookupTbl wState2.products 5 = some { stock := 5, price := 2 } ∧
    update wState2 7 { order_id := none, product_id := none, quantity := some 10, price := none } =
      .error (.insufficientStock 5 (10 - 3) 5) :=
  ⟨rfl, rfl,
    (update_delta_semantics wState2 7
      { order_id := 1, product_id := 5, quantity := 3, price := 2 } 5 2 10 rfl rfl).1
      (by decide)⟩

/-! ### Structural lemmas about the update pipeline -/

theorem updateStock_ok_frame (s : DBState) (d : OrderDetail) (patch : UpdatePatch) (s1 : DBState)
    (h : updateStock s d patch = .ok s1) :
    s1.orders = s.orders ∧ s1.orderDetails = s.orderDetails ∧ s1.nextId = s.nextId ∧
    (∀ k, k ≠ patch.product_id.getD d.product_id →
      lookupTbl s1.products k = lookupTbl s.products k) ∧
    ((patch.quantity = none ∨ patch.quantity = some d.quantity) → s1 = s) := by
  by_cases hc : (patch.product_id.isSome || patch.quantity.isSome) = true
  · simp only [updateStock, hc, if_true] at h
    cases hlp : lookupTbl s.products (patch.product_id.getD d.product_id) with
    | none => simp [hlp] at h
    | some product =>
      simp only [hlp] at h
      cases hq : patch.quantity with
      | none =>
        simp only [hq, Except.ok.injEq] at h
        subst h
        exact ⟨rfl, rfl, rfl, fun k _ => rfl, fun _ => rfl⟩
      | some q =>
        simp only [hq] at h
        by_cases hne : q ≠ d.quantity
        · rw [if_pos hne] at h
          by_cases hstk : q - d.quantity > 0 ∧ product.stock < q - d.quantity
          · rw [if_pos hstk] at h; simp at h
          · rw [if_neg hstk] at h
            simp only [Except.ok.injEq] at h
            subst h
            refine ⟨rfl, rfl, rfl, ?_, ?_⟩
            · intro k hk
              exact lookupTbl_setTbl_ne s.products _ k _ hk
            · rintro (hnone | hsame)
              · exact absurd hnone (by simp)
              · exact absurd (Option.some.inj hsame) hne
        · rw [if_neg hne] at h
          simp only [Except.ok.injEq] at h
          subst h
          exact ⟨rfl, rfl, rfl, fun k _ => rfl, fun _ => rfl⟩
  · simp only [updateStock] at h
    rw [if_neg hc] at h
    obtain rfl := Except.ok.inj h
    exact ⟨rfl, rfl, rfl, fun k _ => rfl, fun _ => rfl⟩

theorem updateStock_error_shape (s : DBState) (d : OrderDetail) (patch : UpdatePatch)
    (e : DomainError) (h : updateStock s d patch = .error e) :
    (∃ k, e = .notFoundProduct k) ∨ (∃ a b c, e = .insufficientStock a b c) := by
  by_cases hc : (patch.product_id.isSome || patch.quantity.isSome) = true
  · simp only [updateStock, hc, if_true] at h
    cases hlp : lookupTbl s.products (patch.product_id.getD d.product_id) with
    | none =>
      simp only [hlp, Except.error.injEq] at h
      exact Or.inl ⟨_, h.symm⟩
    | some product =>
      simp only [hlp] at h
      cases hq : patch.quantity with
      | none => simp [hq] at h
      | some q =>
        simp only [hq] at h
        by_cases hne : q ≠ d.quantity
        · rw [if_pos hne] at h
          by_cases hstk : q - d.quantity > 0 ∧ product.stock < q - d.quantity
          · rw [if_pos hstk] at h
            simp only [Except.error.injEq] at h
            exact Or.inr ⟨_, _, _, h.symm⟩
          · rw [if_neg hstk] at h; simp at h
        · rw [if_neg hne] at h; simp at h
  · simp only [updateStock] at h
    rw [if_neg hc] at h
    simp at h

theorem update_ok_decomp (s : DBState) (id : Nat) (patch : UpdatePatch) (d : OrderDetail)
    (hd : lookupTbl s.orderDetails id = some d) (t : DBState) (od : OrderDetail)
    (h : update s id patch = .ok (t, od)) :
    ∃ s1, updateStock s d patch = .ok s1 ∧ repoUpdate s1 id patch.changes = .ok (t, od) := by
  simp only [update, hd] at h
  cases ho : patch.order_id with
  | none =>
    simp only [ho] at h
    cases hus : updateStock s d patch with
    | error e => simp [hus] at h
    | ok s1 =>
      simp only [hus] at h
      exact ⟨s1, rfl, h⟩
  | some o =>
    simp only [ho] at h
    rw [if_pos ?_] at h
    · cases hus : updateStock s d patch with
      | error e => simp [hus] at h
      | ok s1 =>
        simp only [hus] at h
        exact ⟨s1, rfl, h⟩
    · by_contra hmem
      rw [if_neg hmem] at h
      simp at h

theorem repoUpdate_ok_frame (s : DBState) (k : Nat) (changes : List (String × Option Value))
    (t : DBState) (od : OrderDetail) (h : repoUpdate s k changes = .ok (t, od)) :
    t.products = s.products ∧ t.orders = s.orders ∧ t.nextId = s.nextId ∧
    t.orderDetails = setTbl s.orderDetails k od := by
  cases hd : lookupTbl s.orderDetails k with
  | none => simp [repoUpdate, hd] at h
  | some inst =>
    simp only [repoUpdate, hd] at h
    cases hac : applyChanges inst changes with
    | error e => rw [hac] at h; simp at h
    | ok od1 =>
      rw [hac] at h
      simp only [Except.ok.injEq, Prod.mk.injEq] at h
      obtain ⟨ht, hod⟩ := h
      subst ht
      subst hod
      exact ⟨rfl, rfl, rfl, rfl⟩

/-- C8: product reassignment frame property.  When an update supplies a new
product id `pNew`, only the row of `pNew` can change in the product table:
every other product — in particular the detail's previous product — keeps
its stock; and if the quantity is unchanged (absent or equal to the existing
quantity), the whole product table is untouched, so the old product's
reserved quantity is never released. -/
theorem update_reassign_frame (s : DBState) (id : Nat) (patch : UpdatePatch) (pNew : Nat)
    (d : OrderDetail)
    (hd : lookupTbl s.orderDetails id = some d)
    (hpid : patch.product_id = some pNew) :
    (∀ t od, update s id patch = .ok (t, od) → ∀ k, k ≠ pNew →
      lookupTbl t.products k = lookupTbl s.products k) ∧
    ((patch.quantity = none ∨ patch.quantity = some d.quantity) →
      ∀ t od, update s id patch = .ok (t, od) → t.products = s.products) := by
  constructor
  · intro t od h k hk
    obtain ⟨s1, hus, hru⟩ := update_ok_decomp s id patch d hd t od h
    have hframe := updateStock_ok_frame s d patch s1 hus
    have hrepo := repoUpdate_ok_frame s1 id patch.changes t od hru
    rw [hrepo.1]
    exact hframe.2.2.2.1 k (by rw [hpid]; simpa using hk)
  · intro hq t od h
    obtain ⟨s1, hus, hru⟩ := update_ok_decomp s id patch d hd t od h
    have hframe := updateStock_ok_frame s d patch s1 hus
    have hrepo := repoUpdate_ok_frame s1 id patch.changes t od hru
    rw [hrepo.1, hframe.2.2.2.2 hq]

/-- Witness for C8: reassigning the detail from product 5 to product 9
without a quantity change leaves every product's stock unchanged. -/
theorem update_reassign_frame_witness :
    lookupTbl
      [(7, ({ order_id := 1, product_id := 5, quantity := 3, price := 2 } : OrderDetail))] 7 =
      some { order_id := 1, product_id := 5, quantity := 3, price := 2 } ∧
    (({ order_id := none, product_id := some 9, quantity := none,
        price := none } : UpdatePatch).product_id = some 9) ∧
    (((none : Option Int) = none ∨ (none : Option Int) = some 3) →
      ∀ t od, update
          { orders := [1]
            products := [(5, { stock := 5, price := 2 }), (9, { stock := 4, price := 3 })]
            orderDetails := [(7, { order_id := 1, product_id := 5, quantity := 3, price := 2 })]
            nextId := 8 } 7
          { order_id := none, product_id := some 9, quantity := none, price := none } =
          .ok (t, od) →
        t.products = [(5, { stock := 5, price := 2 }), (9, { stock := 4, price := 3 })]) :=
  ⟨rfl, rfl,
    (update_reassign_frame
      { orders := [1]
        products := [(5, { stock := 5, price := 2 }), (9, { stock := 4, price := 3 })]
        orderDetails := [(7, { order_id := 1, product_id := 5, quantity := 3, price := 2 })]
        nextId := 8 } 7
      { order_id := none, product_id := some 9, quantity := none, price := none } 9
      { order_id := 1, product_id := 5, quantity := 3, price := 2 } rfl rfl).2⟩

/-- C9: `UpdateOrderDetail` never fails with `PriceMismatch`, and a price
supplied in an update is persisted to the stored detail without any
validation against the product's price. -/
theorem update_never_priceMismatch (s : DBState) (id : Nat) (patch : UpdatePatch) :
    (∀ a b, update s id patch ≠ .error (.priceMismatch a b)) ∧
    (∀ pr t od, patch.price = some pr → update s id patch = .ok (t, od) →
      od.price = pr ∧ lookupTbl t.orderDetails id = some od) := by
  constructor
  · intro a b h
    cases hd : lookupTbl s.orderDetails id with
    | none => simp [update, hd] at h
    | some d =>
      simp only [update, hd] at h
      have herr : ∀ e, updateStock s d patch = .error e →
          (match updateStock s d patch with
            | .error e => (.error e : Except DomainError (DBState × OrderDetail))
            | .ok s1 => repoUpdate s1 id patch.changes) =
            .error (.priceMismatch a b) → False := by
        intro e he hh
        simp only [he, Except.error.injEq] at hh
        rcases updateStock_error_shape s d patch e he with ⟨k, hk⟩ | ⟨x, y, z, hxyz⟩
        · simp [hk] at hh
        · simp [hxyz] at hh
      have hok : ∀ s1, updateStock s d patch = .ok s1 →
          (match updateStock s d patch with
            | .error e => (.error e : Except DomainError (DBState × OrderDetail))
            | .ok s1 => repoUpdate s1 id patch.changes) =
            .error (.priceMismatch a b) → False := by
        intro s1 hs1 hh
        simp only [hs1] at hh
        have hframe := updateStock_ok_frame s d patch s1 hs1
        have hd1 : lookupTbl s1.orderDetails id = some d := by rw [hframe.2.1]; exact hd
        rw [repoUpdate_patch s1 id patch d hd1] at hh
        simp at hh
      cases ho : patch.order_id with
      | none =>
        simp only [ho] at h
        exact (match hus : updateStock s d patch with
          | .error e => herr e hus h
          | .ok s1 => hok s1 hus h)
      | some o =>
        simp only [ho] at h
        by_cases hmem : o ∈ s.orders
        · rw [if_pos hmem] at h
          exact (match hus : updateStock s d patch with
            | .error e => herr e hus h
            | .ok s1 => hok s1 hus h)
        · rw [if_neg hmem] at h; simp at h
  · intro pr t od hpr h
    cases hd : lookupTbl s.orderDetails id with
    | none => simp [update, hd] at h
    | some d =>
      obtain ⟨s1, hus, hru⟩ := update_ok_decomp s id patch d hd t od h
      have hframe := updateStock_ok_frame s d patch s1 hus
      have hd1 : lookupTbl s1.orderDetails id = some d := by rw [hframe.2.1]; exact hd
      rw [repoUpdate_patch s1 id patch d hd1] at hru
      simp only [Except.ok.injEq, Prod.mk.injEq] at hru
      obtain ⟨ht, hod⟩ := hru
      constructor
      · rw [← hod]
        simp [hpr]
      · rw [← ht, ← hod]
        exact lookupTbl_setTbl_self s1.orderDetails id _ d hd1

/-- Witness for C9: updating the detail with a submitted price of 37 (far
from the product price 2) succeeds with the stored price 37. -/
theorem update_never_priceMismatch_witness :
    (({ order_id := none, product_id := none, quantity := none,
        price := some 37 } : UpdatePatch).price = some 37) ∧
    (∀ t od, update wState2 7
        { order_id := none, product_id := none, quantity := none, price := some 37 } =
        .ok (t, od) →
      od.price = 37 ∧ lookupTbl t.orderDetails 7 = some od) :=
  ⟨rfl, fun t od h =>
    (update_never_priceMismatch wState2 7
      { order_id := none, product_id := none, quantity := none, price := some 37 }).2
      37 t od rfl h⟩

/-- The committed state of a bare repository update: the `.ok` state on
success, the rolled-back (unchanged) state on `ValueError` or not-found. -/
def repoUpdateCommitted (s : DBState) (id : Nat)
    (changes : List (String × Option Value)) : DBState :=
  match repoUpdate s id changes with
  | .ok t => t.1
  | .error _ => s

theorem applyChanges_filter (od : OrderDetail) (changes : List (String × Option Value)) :
    applyChanges od changes =
      applyChanges od (changes.filter (fun c => c.2.isSome)) := by
  induction changes generalizing od with
  | nil => rfl
  | cons c rest ih =>
    rcases c with ⟨k, v⟩
    cases v with
    | none =>
      simp only [applyChanges, List.filter_cons, Option.isSome_none,
        Bool.false_eq_true, if_false]
      exact ih od
    | some v =>
      simp only [applyChanges, List.filter_cons, Option.isSome_some, if_true]
      split
      · rfl
      · split
        · rfl
        · exact ih _

theorem applyChanges_bad (od : OrderDetail) (changes : List (String × Option Value))
    (h : ∃ c ∈ changes, c.2 ≠ none ∧
      (startsWithUnderscore c.1 = true ∨ c.1 ∈ PROTECTED ∨ c.1 ∉ odColumns)) :
    ∃ e, applyChanges od changes = .error e ∧
      ((∃ k, e = .protectedAttr k) ∨ (∃ k, e = .invalidField k)) := by
  induction changes generalizing od with
  | nil => simp at h
  | cons c rest ih =>
    rcases c with ⟨k, v⟩
    cases v with
    | none =>
      simp only [applyChanges]
      apply ih
      rcases h with ⟨c, hc, hsome, hbad⟩
      rcases List.mem_cons.mp hc with rfl | hmem
      · simp at hsome
      · exact ⟨c, hmem, hsome, hbad⟩
    | some v =>
      by_cases hg1 : (startsWithUnderscore k || decide (k ∈ PROTECTED)) = true
      · refine ⟨.protectedAttr k, ?_, Or.inl ⟨k, rfl⟩⟩
        simp only [applyChanges]
        rw [if_pos hg1]
      · by_cases hg2 : k ∉ odColumns
        · refine ⟨.invalidField k, ?_, Or.inr ⟨k, rfl⟩⟩
          simp only [applyChanges]
          rw [if_neg hg1, if_pos hg2]
        · simp only [applyChanges]
          rw [if_neg hg1, if_neg hg2]
          apply ih
          rcases h with ⟨c, hc, hsome, hbad⟩
          rcases List.mem_cons.mp hc with rfl | hmem
          · exfalso
            simp only [Bool.or_eq_true, decide_eq_true_eq, not_or] at hg1
            rcases hbad with hb | hb | hb
            · exact absurd hb hg1.1
            · exact absurd hb hg1.2
            · exact absurd hb hg2
          · exact ⟨c, hmem, hsome, hbad⟩

/-- C10: base-repository update semantics: changes whose submitted value is
`None` are silently skipped (the update behaves as if they were filtered
out, so no column is cleared to `None`), while any change carrying a value
whose attribute name starts with an underscore, is protected, or is not a
column of the model makes the whole update fail with a `ValueError`
(protected-attribute or invalid-field) and roll back, leaving the stored
row and the whole state unchanged. -/
theorem repoUpdate_skip_none_reject_bad (s : DBState) (id : Nat)
    (changes : List (String × Option Value)) (d : OrderDetail)
    (hd : lookupTbl s.orderDetails id = some d) :
    (repoUpdate s id changes =
      repoUpdate s id (changes.filter (fun c => c.2.isSome))) ∧
    ((∃ c ∈ changes, c.2 ≠ none ∧
        (startsWithUnderscore c.1 = true ∨ c.1 ∈ PROTECTED ∨ c.1 ∉ odColumns)) →
      (∃ e, repoUpdate s id changes = .error e ∧
        ((∃ k, e = .protectedAttr k) ∨ (∃ k, e = .invalidField k))) ∧
      repoUpdateCommitted s id changes = s ∧
      lookupTbl (repoUpdateCommitted s id changes).orderDetails id = some d) := by
  constructor
  · simp only [repoUpdate, hd, applyChanges_filter d changes]
  · intro hbad
    obtain ⟨e, he, hkind⟩ := applyChanges_bad d changes hbad
    have herr : repoUpdate s id changes = .error e := by
      simp only [repoUpdate, hd, he]
    have hcomm : repoUpdateCommitted s id changes = s := by
      simp only [repoUpdateCommitted, herr]
    exact ⟨⟨e, herr, hkind⟩, hcomm, by rw [hcomm]; exact hd⟩

/-- Witness for C10: an update naming the SQLAlchemy-internal attribute
fails with a protected-attribute `ValueError` and leaves the state
unchanged. -/
theorem repoUpdate_skip_none_reject_bad_witness :
    lookupTbl wState2.orderDetails 7 =
      some { order_id := 1, product_id := 5, quantity := 3, price := 2 } ∧
    ((∃ e, repoUpdate wState2 7 [("_sa_instance_state", some (Value.vInt 1))] = .error e ∧
        ((∃ k, e = .protectedAttr k) ∨ (∃ k, e = .invalidField k))) ∧
      repoUpdateCommitted wState2 7 [("_sa_instance_state", some (Value.vInt 1))] = wState2 ∧
      lookupTbl (repoUpdateCommitted wState2 7
          [("_sa_instance_state", some (Value.vInt 1))]).orderDetails 7 =
        some { order_id := 1, product_id := 5, quantity := 3, price := 2 }) :=
  ⟨rfl,
    (repoUpdate_skip_none_reject_bad wState2 7
      [("_sa_instance_state", some (Value.vInt 1))]
      { order_id := 1, product_id := 5, quantity := 3, price := 2 } rfl).2
      ⟨("_sa_instance_state", some (Value.vInt 1)), by simp, by simp,
        Or.inl (by decide)⟩⟩

/-- C6: atomicity on failure.  Whenever Create, Update or Delete fails with
a domain error, the committed state equals the pre-transaction state: the
product table and the order-detail table are unchanged — in particular a
Create that fails at the price-mismatch step leaves `Product.stock`
untouched and inserts no `OrderDetail` row.  (In the embedding, an `.error`
result is produced by the source's raise-after-rollback `except` blocks;
the service's in-session stock mutation during Update is discarded with the
rest of the transaction.) -/
theorem rollback_on_error (s : DBState) (op : Op) (e : DomainError)
    (h : opError s op = some e) :
    applyOp s op = s ∧
    (applyOp s op).products = s.products ∧
    (applyOp s op).orderDetails = s.orderDetails ∧
    (∀ req a b, op = .create req → save s req = .error (.priceMismatch a b) →
      (applyOp s op).products = s.products ∧
      (applyOp s op).orderDetails = s.orderDetails) := by
  have hmain : applyOp s op = s := by
    cases op with
    | create r =>
      cases hs : save s r with
      | ok t => simp [opError, hs] at h
      | error e1 => simp [applyOp, hs]
    | updateOp i p =>
      cases hs : update s i p with
      | ok t => simp [opError, hs] at h
      | error e1 => simp [applyOp, hs]
    | deleteOp i =>
      cases hs : delete s i with
      | ok t => simp [opError, hs] at h
      | error e1 => simp [applyOp, hs]
  exact ⟨hmain, by rw [hmain], by rw [hmain], fun req a b _ _ => ⟨by rw [hmain], by rw [hmain]⟩⟩

/-- Witness for C6: a Create requesting quantity 11 against stock 10 fails,
and the committed state is exactly the original `wState`. -/
theorem rollback_on_error_witness :
    opError wState (.create { order_id := 1, product_id := 5, quantity := 11, price := none }) =
      some (.insufficientStock 5 11 10) ∧
    applyOp wState
      (.create { order_id := 1, product_id := 5, quantity := 11, price := none }) = wState :=
  ⟨rfl,
    (rollback_on_error wState
      (.create { order_id := 1, product_id := 5, quantity := 11, price := none })
      (.insufficientStock 5 11 10) rfl).1⟩

/-! ### The non-negative stock invariant -/

/-- Every product row of the state has non-negative stock. -/
def StocksNonneg (s : DBState) : Prop :=
  ∀ p ∈ s.products, 0 ≤ p.2.stock

/-- Every order-detail row of the state has non-negative quantity (the
schema layer guarantees positivity of submitted quantities). -/
def QuantitiesNonneg (s : DBState) : Prop :=
  ∀ d ∈ s.orderDetails, 0 ≤ d.2.quantity

/-- Well-formedness of an operation as enforced by the Pydantic schemas
(`quantity: int = Field(..., gt=0)` in src/schemas/order_detail_schema.py):
any submitted quantity is positive. -/
def Op.wf : Op → Prop
  | .create r => 0 < r.quantity
  | .updateOp _ patch => ∀ q, patch.quantity = some q → 0 < q
  | .deleteOp _ => True

theorem lookupTbl_mem {α : Type} (tbl : List (Nat × α)) (k : Nat) (v : α)
    (h : lookupTbl tbl k = some v) : (k, v) ∈ tbl := by
  induction tbl with
  | nil => simp [lookupTbl] at h
  | cons hd tl ih =>
    rcases hd with ⟨a, b⟩
    by_cases hk : a = k
    · simp only [lookupTbl, hk, if_true, Option.some.injEq] at h
      rw [← hk, ← h]
      exact List.mem_cons_self _ _
    · simp only [lookupTbl, hk, if_false] at h
      exact List.mem_cons_of_mem _ (ih h)

theorem save_ok_decomp (s : DBState) (r : CreateReq) (t : DBState) (n : Nat)
    (h : save s r = .ok (t, n)) :
    ∃ product fp, lookupTbl s.products r.product_id = some product ∧
      ¬ product.stock < r.quantity ∧
      t.products = setTbl s.products r.product_id
        { product with stock := product.stock - r.quantity } ∧
      t.orderDetails = s.orderDetails ++
        [(s.nextId, { order_id := r.order_id, product_id := r.product_id,
                      quantity := r.quantity, price := fp })] ∧
      t.orders = s.orders ∧ t.nextId = s.nextId + 1 := by
  by_cases hmem : r.order_id ∈ s.orders
  · simp only [save, hmem, if_true] at h
    cases hlp : lookupTbl s.products r.product_id with
    | none => simp [hlp] at h
    | some product =>
      simp only [hlp] at h
      by_cases hstk : product.stock < r.quantity
      · rw [if_pos hstk] at h; simp at h
      · rw [if_neg hstk] at h
        set fp := (match r.price with
          | some p => p
          | none => product.price) with hfp
        by_cases hpm : |fp - product.price| > (1 : Rat) / 100
        · rw [if_pos hpm] at h; simp at h
        · rw [if_neg hpm] at h
          simp only [Except.ok.injEq, Prod.mk.injEq] at h
          obtain ⟨ht, _⟩ := h
          subst ht
          exact ⟨product, fp, rfl, hstk, rfl, rfl, rfl, rfl⟩
  · simp [save, hmem] at h

theorem updateStock_ok_stocks (s : DBState) (d : OrderDetail) (patch : UpdatePatch)
    (s1 : DBState) (h : updateStock s d patch = .ok s1) (hstk : StocksNonneg s) :
    StocksNonneg s1 := by
  by_cases hc : (patch.product_id.isSome || patch.quantity.isSome) = true
  · simp only [updateStock, hc, if_true] at h
    cases hlp : lookupTbl s.products (patch.product_id.getD d.product_id) with
    | none => simp [hlp] at h
    | some product =>
      simp only [hlp] at h
      cases hq : patch.quantity with
      | none =>
        simp only [hq, Except.ok.injEq] at h
        subst h
        exact hstk
      | some q =>
        simp only [hq] at h
        by_cases hne : q ≠ d.quantity
        · rw [if_pos hne] at h
          by_cases hov : q - d.quantity > 0 ∧ product.stock < q - d.quantity
          · rw [if_pos hov] at h; simp at h
          · rw [if_neg hov] at h
            obtain rfl := Except.ok.inj h
            intro p hp
            rcases mem_setTbl _ _ _ p hp with hmem | hval
            · exact hstk p hmem
            · rw [hval]
              have h0 : 0 ≤ product.stock :=
                hstk _ (lookupTbl_mem _ _ _ hlp)
              simp only [not_and, not_lt] at hov
              by_cases hdpos : q - d.quantity > 0
              · have := hov hdpos
                simp only
                omega
              · simp only
                omega
        · rw [if_neg hne] at h
          obtain rfl := Except.ok.inj h
          exact hstk
  · simp only [updateStock] at h
    rw [if_neg hc] at h
    obtain rfl := Except.ok.inj h
    exact hstk

theorem delete_ok_decomp (s : DBState) (id : Nat) (t : DBState) (h : delete s id = .ok t) :
    ∃ d product, lookupTbl s.orderDetails id = some d ∧
      lookupTbl s.products d.product_id = some product ∧
      t.products = setTbl s.products d.product_id
        { product with stock := product.stock + d.quantity } ∧
      t.orderDetails = removeTbl s.orderDetails id ∧
      t.orders = s.orders ∧ t.nextId = s.nextId := by
  cases hd : lookupTbl s.orderDetails id with
  | none => simp [delete, hd] at h
  | some d =>
    simp only [delete, hd] at h
    cases hlp : lookupTbl s.products d.product_id with
    | none => simp [hlp] at h
    | some product =>
      simp only [hlp] at h
      obtain rfl := Except.ok.inj h
      exact ⟨d, product, rfl, hlp, rfl, rfl, rfl, rfl⟩

theorem applyOp_preserves (s : DBState) (op : Op) (hwf : op.wf)
    (hstk : StocksNonneg s) (hqty : QuantitiesNonneg s) :
    StocksNonneg (applyOp s op) ∧ QuantitiesNonneg (applyOp s op) := by
  cases op with
  | create r =>
    cases hs : save s r with
    | error e1 => simp only [applyOp, hs]; exact ⟨hstk, hqty⟩
    | ok t =>
      rcases t with ⟨t, n⟩
      obtain ⟨product, fp, hlp, hnlt, hp, hod, _, _⟩ := save_ok_decomp s r t n hs
      simp only [applyOp, hs]
      constructor
      · intro p hp1
        rw [hp] at hp1
        rcases mem_setTbl _ _ _ p hp1 with hmem | hval
        · exact hstk p hmem
        · rw [hval]
          simp only
          omega
      · intro dd hdd
        rw [hod] at hdd
        rcases List.mem_append.mp hdd with hmem | hnew
        · exact hqty dd hmem
        · simp only [List.mem_singleton] at hnew
          rw [hnew]
          show (0 : Int) ≤ r.quantity
          simp only [Op.wf] at hwf
          omega
  | updateOp i patch =>
    cases hs : update s i patch with
    | error e1 => simp only [applyOp, hs]; exact ⟨hstk, hqty⟩
    | ok t =>
      rcases t with ⟨t, od⟩
      cases hd : lookupTbl s.orderDetails i with
      | none => simp [update, hd] at hs
      | some d =>
        obtain ⟨s1, hus, hru⟩ := update_ok_decomp s i patch d hd t od hs
        have hframe := updateStock_ok_frame s d patch s1 hus
        have hstk1 : StocksNonneg s1 := updateStock_ok_stocks s d patch s1 hus hstk
        have hqty1 : QuantitiesNonneg s1 := by
          intro dd hdd
          rw [hframe.2.1] at hdd
          exact hqty dd hdd
        have hrepo := repoUpdate_ok_frame s1 i patch.changes t od hru
        have hd1 : lookupTbl s1.orderDetails i = some d := by
          rw [hframe.2.1]; exact hd
        rw [repoUpdate_patch s1 i patch d hd1] at hru
        simp only [Except.ok.injEq, Prod.mk.injEq] at hru
        obtain ⟨ht, hod⟩ := hru
        simp only [applyOp, hs]
        constructor
        · intro p hp1
          rw [hrepo.1] at hp1
          exact hstk1 p hp1
        · intro dd hdd
          rw [hrepo.2.2.2] at hdd
          rcases mem_setTbl _ _ _ dd hdd with hmem | hval
          · exact hqty1 dd hmem
          · rw [hval, ← hod]
            simp only [Op.wf] at hwf
            cases hq : patch.quantity with
            | none =>
              simp only [hq, Option.getD_none]
              exact hqty _ (lookupTbl_mem _ _ _ hd)
            | some q =>
              simp only [hq, Option.getD_some]
              have := hwf q hq
              omega
  | deleteOp i =>
    cases hs : delete s i with
    | error e1 => simp only [applyOp, hs]; exact ⟨hstk, hqty⟩
    | ok t =>
      obtain ⟨d, product, hd, hlp, hp, hod, _, _⟩ := delete_ok_decomp s i t hs
      simp only [applyOp, hs]
      constructor
      · intro p hp1
        rw [hp] at hp1
        rcases mem_setTbl _ _ _ p hp1 with hmem | hval
        · exact hstk p hmem
        · rw [hval]
          have h0 : 0 ≤ product.stock := hstk _ (lookupTbl_mem _ _ _ hlp)
          have h1 : 0 ≤ d.quantity := hqty _ (lookupTbl_mem _ _ _ hd)
          simp only
          omega
      · intro dd hdd
        rw [hod] at hdd
        exact hqty dd (mem_removeTbl _ _ _ hdd)

/-- C2: invariant preservation.  From any committed state whose product
stocks are non-negative (and whose stored quantities are non-negative, as
the schema layer guarantees), any sequence of schema-validated Create,
Update and Delete operations leaves every `Product.stock` non-negative in
every committed state it reaches. -/
theorem stock_invariant_preserved (s : DBState) (ops : List Op)
    (hwf : ∀ op ∈ ops, op.wf)
    (hstk : StocksNonneg s) (hqty : QuantitiesNonneg s) :
    StocksNonneg (run s ops) := by
  suffices hsuff : StocksNonneg (run s ops) ∧ QuantitiesNonneg (run s ops) from hsuff.1
  induction ops generalizing s with
  | nil => exact ⟨hstk, hqty⟩
  | cons op rest ih =>
    have hstep := applyOp_preserves s op (hwf op (List.mem_cons_self _ _)) hstk hqty
    exact ih (applyOp s op)
      (fun o ho => hwf o (List.mem_cons_of_mem _ ho)) hstep.1 hstep.2

/-- Witness for C2: running a create, an update and a delete on `wState2`
keeps all stocks non-negative. -/
theorem stock_invariant_preserved_witness :
    (∀ op ∈ [Op.create { order_id := 1, product_id := 5, quantity := 2, price := none },
             Op.updateOp 7 { order_id := none, product_id := none,
                             quantity := some 1, price := none },
             Op.deleteOp 7], op.wf) ∧
    StocksNonneg wState2 ∧ QuantitiesNonneg wState2 ∧
    StocksNonneg (run wState2
      [Op.create { order_id := 1, product_id := 5, quantity := 2, price := none },
       Op.updateOp 7 { order_id := none, product_id := none,
                       quantity := some 1, price := none },
       Op.deleteOp 7]) :=
  ⟨by simp [Op.wf], by simp [StocksNonneg, wState2], by simp [QuantitiesNonneg, wState2],
    stock_invariant_preserved wState2
      [Op.create { order_id := 1, product_id := 5, quantity := 2, price := none },
       Op.updateOp 7 { order_id := none, product_id := none,
                       quantity := some 1, price := none },
       Op.deleteOp 7]
      (by simp [Op.wf])
      (by simp [StocksNonneg, wState2])
      (by simp [QuantitiesNonneg, wState2])⟩

/-- C1: no overselling.  The `SELECT ... FOR UPDATE` row lock serializes
the critical sections of concurrent Create calls on one product, so any
concurrent schedule executes as `runCreates` in some order.  For a product
with stock `N ≥ 0` and any batch of Create requests on it (existing order,
no submitted price, positive quantities), the requests that succeed have
quantities summing to at most `N`, the final committed stock is exactly
`N` minus that sum (each committed Create subtracts its quantity exactly
once), and every failed request fails with `InsufficientStock` — in
particular, when the batch requests more than `N` in total, only a subset
summing to at most `N` succeeds, regardless of the serialization order. -/
theorem no_overselling (reqs : List CreateReq) (s : DBState) (pid : Nat) (N : Int) (P : Rat)
    (hprod : lookupTbl s.products pid = some { stock := N, price := P })
    (hN : 0 ≤ N)
    (hreqs : ∀ r ∈ reqs, r.product_id = pid ∧ r.order_id ∈ s.orders ∧
      r.price = none ∧ 0 < r.quantity) :
    successSum (runCreates s reqs).2 ≤ N ∧
    lookupTbl (runCreates s reqs).1.products pid =
      some { stock := N - successSum (runCreates s reqs).2, price := P } ∧
    (∀ p ∈ (runCreates s reqs).2,
      (∃ n, p.2 = .ok n) ∨ ∃ a b c, p.2 = .error (.insufficientStock a b c)) := by
  induction reqs generalizing s N with
  | nil =>
    refine ⟨by simpa [runCreates, successSum] using hN, ?_, by simp [runCreates]⟩
    simpa [runCreates, successSum] using hprod
  | cons r rest ih =>
    obtain ⟨hpid, horder, hpnone, hqpos⟩ := hreqs r (List.mem_cons_self _ _)
    have hprod' : lookupTbl s.products r.product_id = some { stock := N, price := P } := by
      rw [hpid]; exact hprod
    have hs := save_eq s r N P horder hprod'
    rw [hpnone] at hs
    simp only [Option.getD_none, sub_self, abs_zero] at hs
    rw [if_neg (show ¬ (0 : Rat) > (1 : Rat) / 100 by norm_num)] at hs
    by_cases hcase : N < r.quantity
    · rw [if_pos hcase] at hs
      have hrun : runCreates s (r :: rest) =
          ((runCreates s rest).1,
            (r.quantity, .error (.insufficientStock r.product_id r.quantity N)) ::
              (runCreates s rest).2) := by
        simp only [runCreates, hs]
      have ihr := ih s N hprod hN
        (fun r' hr' => hreqs r' (List.mem_cons_of_mem _ hr'))
      rw [hrun]
      refine ⟨?_, ?_, ?_⟩
      · simpa [successSum] using ihr.1
      · simpa [successSum] using ihr.2.1
      · intro p hp
        rcases List.mem_cons.mp hp with rfl | hmem
        · exact Or.inr ⟨_, _, _, rfl⟩
        · exact ihr.2.2 p hmem
    · rw [if_neg hcase] at hs
      set s1 : DBState :=
        { s with
            products := setTbl s.products r.product_id { stock := N - r.quantity, price := P }
            orderDetails := s.orderDetails ++
              [(s.nextId, { order_id := r.order_id, product_id := r.product_id,
                            quantity := r.quantity, price := P })]
            nextId := s.nextId + 1 } with hs1
      have hrun : runCreates s (r :: rest) =
          ((runCreates s1 rest).1,
            (r.quantity, .ok s.nextId) :: (runCreates s1 rest).2) := by
        simp only [runCreates, hs]
      have hprod1 : lookupTbl s1.products pid =
          some { stock := N - r.quantity, price := P } := by
        rw [hs1]
        simp only []
        rw [hpid] at hprod' ⊢
        exact lookupTbl_setTbl_self s.products pid _ _ hprod
      have hN1 : 0 ≤ N - r.quantity := by omega
      have hreqs1 : ∀ r' ∈ rest, r'.product_id = pid ∧ r'.order_id ∈ s1.orders ∧
          r'.price = none ∧ 0 < r'.quantity :=
        fun r' hr' => hreqs r' (List.mem_cons_of_mem _ hr')
      have ihr := ih s1 (N - r.quantity) hprod1 hN1 hreqs1
      rw [hrun]
      have hsum : successSum ((r.quantity, (.ok s.nextId : Except DomainError Nat)) ::
          (runCreates s1 rest).2) = r.quantity + successSum (runCreates s1 rest).2 := by
        simp [successSum]
      refine ⟨?_, ?_, ?_⟩
      · rw [hsum]
        have := ihr.1
        omega
      · rw [hsum]
        have heq : N - r.quantity - successSum (runCreates s1 rest).2 =
            N - (r.quantity + successSum (runCreates s1 rest).2) := by omega
        rw [← heq]
        exact ihr.2.1
      · intro p hp
        rcases List.mem_cons.mp hp with rfl | hmem
        · exact Or.inl ⟨s.nextId, rfl⟩
        · exact ihr.2.2 p hmem

/-- Witness for C1: two concurrent creates of quantity 6 against stock 10:
the successful subset sums to at most 10 and the final stock reflects it. -/
theorem no_overselling_witness :
    lookupTbl wState.products 5 = some { stock := 10, price := 2 } ∧
    (0 : Int) ≤ 10 ∧
    (∀ r ∈ [({ order_id := 1, product_id := 5, quantity := 6, price := none } : CreateReq),
            { order_id := 1, product_id := 5, quantity := 6, price := none }],
      r.product_id = 5 ∧ r.order_id ∈ wState.orders ∧ r.price = none ∧ 0 < r.quantity) ∧
    successSum (runCreates wState
      [{ order_id := 1, product_id := 5, quantity := 6, price := none },
       { order_id := 1, product_id := 5, quantity := 6, price := none }]).2 ≤ 10 :=
  ⟨rfl, by decide, by decide,
    (no_overselling
      [{ order_id := 1, product_id := 5, quantity := 6, price := none },
       { order_id := 1, product_id := 5, quantity := 6, price := none }]
      wState 5 10 2 rfl (by decide) (by decide)).1⟩

end FinalPyBackend

